import Mathlib

/-!
Verification of the ylurm dashboard core (job registry, detail cache,
log view state) against its source.

Files are modelled as lists of characters (one character per byte of the
UTF-8 view; the backward chunking of `tail_read` reassembles the whole
buffer before decoding, so chunk boundaries never affect the decoded
suffix).  External collaborators (squeue, scontrol, file/ssh reads) are
passed in as explicit arguments, matching the spec's black-box contracts.
-/

namespace Ylurm

/-- Strip at most one trailing carriage return, as Rust's `str::lines`
does on each produced line. -/
def stripCR (l : List Char) : List Char :=
  if l.getLast? = some '\r' then l.dropLast else l

/-- Worker for `linesList`: `acc` holds the current (reversed) partial
line. Models the iteration of Rust's `str::lines`. -/
def linesGo : List Char → List Char → List (List Char)
  | acc, [] => if acc.isEmpty then [] else [stripCR acc.reverse]
  | acc, c :: cs =>
    if c = '\n' then stripCR acc.reverse :: linesGo [] cs
    else linesGo (c :: acc) cs

/-- Rust `str::lines`: split on `'\n'`, strip one trailing `'\r'` per
line, no trailing empty line for a terminating newline. -/
def linesList (l : List Char) : List (List Char) :=
  linesGo [] l

/-- Number of newline bytes, as counted by the inner loop of `tail_read`. -/
def countNL : List Char → Nat
  | [] => 0
  | c :: cs => (if c = '\n' then 1 else 0) + countNL cs

/-- The backward chunked accumulation loop of `tail_read`
(src/slurm/parser.rs, lines 176-200): reads 8192-byte chunks from the
end, prepending each to `buf` (`buf.splice(0..0, chunk)`), until more
than `k` newlines have been seen (the inner counting loop breaks as soon
as the count exceeds `k`, hence the cap at `k + 1`) or the start of the
file is reached. -/
def tailLoop (file : List Char) (k : Nat) (pos : Nat) (nf : Nat) (buf : List Char) : List Char :=
  if h : pos = 0 then buf
  else
    let rs := min 8192 pos
    let pos' := pos - rs
    let chunk := (file.take pos).drop pos'
    let nf' := min (nf + countNL chunk) (k + 1)
    let buf' := chunk ++ buf
    if k < nf' ∨ pos' = 0 then buf' else tailLoop file k pos' nf' buf'
termination_by pos
decreasing_by
  simp_wf
  omega

/-- `tail_read` (src/slurm/parser.rs, lines 162-206): empty file gives an
empty result; otherwise accumulate a suffix via `tailLoop`, split it into
lines, and join the last `k` of them with newlines. -/
def tail_read (file : List Char) (k : Nat) : List Char :=
  if file.length = 0 then []
  else
    let buf := tailLoop file k file.length 0 []
    let ls := linesList buf
    let start := ls.length - k
    List.intercalate ['\n'] (ls.drop start)

/-! ## Data model (src/slurm/parser.rs, src/app.rs) -/

/-- JobState enumeration (src/slurm/parser.rs, lines 7-17). -/
inductive JobState where
  | Running
  | Pending
  | Completing
  | Completed
  | Failed
  | Cancelled
  | Timeout
  | Unknown (raw : String)
deriving DecidableEq

/-- Job record (src/slurm/parser.rs, lines 47-63). -/
structure Job where
  job_id : String
  partition : String
  name : String
  user : String
  state : JobState
  time : String
  nodes : String
  nodelist : String
  tres : String
  command : String
  work_dir : String
  stderr : Option String
  stdout : Option String
deriving DecidableEq

/-- FocusPanel (src/app.rs, lines 7-11). -/
inductive FocusPanel where
  | Jobs
  | Log
deriving DecidableEq

/-- ratatui Rect; only stored for hit testing and viewport height. -/
structure Rect where
  x : Nat
  y : Nat
  width : Nat
  height : Nat
deriving DecidableEq

/-- App state (src/app.rs, lines 13-35).  `table_selected` models
`TableState::selected()`.  u16 fields are Nats reduced mod 2^16 at the
operations that truncate. -/
structure App where
  jobs : List Job
  table_selected : Option Nat
  should_quit : Bool
  log_preview : Option String
  log_error : Option String
  show_stderr : Bool
  log_scroll : Nat
  log_line_count : Nat
  focus : FocusPanel
  job_list_area : Rect
  log_area : Rect
  last_detail_job_id : Option String
  last_log_key : Option String
deriving DecidableEq

/-- `App::selected_job` (src/app.rs, lines 195-199). -/
def selected_job (s : App) : Option Job :=
  s.table_selected.bind (fun i => s.jobs.get? i)

/-- Panel-interior height: `log_area.height.saturating_sub(2)`. -/
def viewport_lines (s : App) : Nat := s.log_area.height - 2

/-- `(log_line_count as u16).saturating_sub(viewport_lines)` — the bottom
bound used by `is_at_bottom`, `scroll_log_down` and `scroll_log_bottom`. -/
def max_scroll (s : App) : Nat := s.log_line_count % 65536 - viewport_lines s

/-- `App::is_at_bottom` (src/app.rs, lines 133-137). -/
def is_at_bottom (s : App) : Bool := decide (max_scroll s ≤ s.log_scroll)

/-- `App::scroll_log_bottom` (src/app.rs, lines 232-237). -/
def scroll_log_bottom (s : App) : App :=
  { s with log_scroll := s.log_line_count % 65536 - viewport_lines s }

/-- `App::scroll_log_down` (src/app.rs, lines 218-222);u16 addition wraps. -/
def scroll_log_down (s : App) (amount : Nat) : App :=
  { s with log_scroll := min ((s.log_scroll + amount) % 65536) (max_scroll s) }

/-- `App::scroll_log_up` (src/app.rs, lines 224-226). -/
def scroll_log_up (s : App) (amount : Nat) : App :=
  { s with log_scroll := s.log_scroll - amount }

/-- `App::scroll_log_top` (src/app.rs, lines 228-230). -/
def scroll_log_top (s : App) : App := { s with log_scroll := 0 }

/-- `App::toggle_log_mode` (src/app.rs, lines 212-216). -/
def toggle_log_mode (s : App) : App :=
  { s with show_stderr := !s.show_stderr, last_log_key := none, log_scroll := 0 }

/-- `App::cycle_focus` (src/app.rs, lines 201-206). -/
def cycle_focus (s : App) : App :=
  { s with focus := match s.focus with
      | FocusPanel.Jobs => FocusPanel.Log
      | FocusPanel.Log => FocusPanel.Jobs }

/-- `App::focus_jobs` (src/app.rs, lines 208-210). -/
def focus_jobs (s : App) : App := { s with focus := FocusPanel.Jobs }

/-- `App::next_job` (src/app.rs, lines 239-246). -/
def next_job (s : App) : App :=
  if s.jobs.isEmpty then s
  else
    let i := match s.table_selected with
      | some i => if s.jobs.length - 1 ≤ i then 0 else i + 1
      | none => 0
    { s with table_selected := some i }

/-- `App::previous_job` (src/app.rs, lines 248-255). -/
def previous_job (s : App) : App :=
  if s.jobs.isEmpty then s
  else
    let i := match s.table_selected with
      | some i => if i = 0 then s.jobs.length - 1 else i - 1
      | none => 0
    { s with table_selected := some i }

/-- `App::select_first` (src/app.rs, lines 257-261). -/
def select_first (s : App) : App :=
  if s.jobs.isEmpty then s else { s with table_selected := some 0 }

/-- `App::select_last` (src/app.rs, lines 263-267). -/
def select_last (s : App) : App :=
  if s.jobs.isEmpty then s else { s with table_selected := some (s.jobs.length - 1) }

/-- Detail transfer inside `refresh_jobs` (src/app.rs, lines 74-79):
copy previously fetched paths onto a new job when the identifier matches
an entry captured from the old list. -/
def transfer_details (old_details : List (String × Option String × Option String))
    (job : Job) : Job :=
  match old_details.find? (fun t => t.1 = job.job_id) with
  | some (_, se, so) => { job with stderr := se, stdout := so }
  | none => job

/-- The capture of already-fetched details at the top of `refresh_jobs`
(src/app.rs, lines 64-67). -/
def old_details_of (s : App) : List (String × Option String × Option String) :=
  (s.jobs.filter (fun j => j.stderr.isSome)).map (fun j => (j.job_id, j.stderr, j.stdout))

/-- Fallthrough of `refresh_jobs` (src/app.rs, lines 90-97): clamp the
numeric index into the new bounds and invalidate both cache markers. -/
def refresh_clamp (s : App) (jobs' : List Job) : App :=
  let sel := match s.table_selected with
    | some i =>
      if jobs'.length ≤ i ∧ ¬jobs'.isEmpty then some (jobs'.length - 1) else some i
    | none => none
  { s with jobs := jobs', table_selected := sel,
           last_detail_job_id := none, last_log_key := none }

/-- `App::refresh_jobs` (src/app.rs, lines 62-98).  The snapshot obtained
from `fetch_jobs` is passed in (`newJobs`), per the spec's black-box Job
Snapshot Source. -/
def refresh_jobs (s : App) (newJobs : List Job) : App :=
  let old_details := old_details_of s
  let prev_job_id := (selected_job s).map (fun j => j.job_id)
  let jobs' := newJobs.map (transfer_details old_details)
  match prev_job_id with
  | some prev_id =>
    match jobs'.findIdx? (fun j => j.job_id = prev_id) with
    | some new_idx => { s with jobs := jobs', table_selected := some new_idx }
    | none => refresh_clamp s jobs'
  | none => refresh_clamp s jobs'

/-- Cache key `format!("{}:{}", job_id, mode)` (src/app.rs, line 142). -/
def log_key_of (s : App) (j : Job) : String :=
  j.job_id ++ ":" ++ (if s.show_stderr then "err" else "out")

/-- `content.lines().count()` on the loaded content. -/
def countLines (content : String) : Nat := (linesList content.data).length

/-- The no-path arm of `ensure_log_loaded` (src/app.rs, lines 166-171). -/
def load_no_path (s : App) (key : String) : App :=
  { s with log_error := some "No path available", log_preview := none,
           last_log_key := some key }

/-- The success arm of `ensure_log_loaded` (src/app.rs, lines 176-184,
192): store content and line count, clear the error, auto-scroll only if
the view was at the bottom, then record the cache key. -/
def load_ok (s : App) (key content : String) (was_at_bottom : Bool) : App :=
  let s1 := { s with log_line_count := countLines content,
                     log_preview := some content, log_error := none }
  let s2 := if was_at_bottom then scroll_log_bottom s1 else s1
  { s2 with last_log_key := some key }

/-- The error arm of `ensure_log_loaded` (src/app.rs, lines 185-190,
192): clear content, store the error, zero count and scroll, and still
record the cache key. -/
def load_err (s : App) (key e : String) : App :=
  { s with log_preview := none, log_error := some e,
           log_line_count := 0, log_scroll := 0, last_log_key := some key }

/-- `App::ensure_log_loaded` (src/app.rs, lines 140-193).  `readFn`
models `read_log_file(path, nodelist, config, 500)` (external Log
Source).  The second component records whether a read was performed. -/
def ensure_log_loaded (readFn : String → String → Except String String)
    (s : App) : App × Bool :=
  match selected_job s with
  | none => (s, false)
  | some j =>
    let log_key := log_key_of s j
    if s.last_log_key = some log_key then (s, false)
    else
      let was_at_bottom := is_at_bottom s || s.log_preview.isNone
      match selected_job s with
      | none => (s, false)
      | some job =>
        let pathOpt := if s.show_stderr then job.stderr else job.stdout
        match pathOpt with
        | some p =>
          if p = "" then (load_no_path s log_key, false)
          else
            match readFn p job.nodelist with
            | Except.ok content => (load_ok s log_key content was_at_bottom, true)
            | Except.error e => (load_err s log_key e, true)
        | none => (load_no_path s log_key, false)

/-- Path write-back inside `ensure_job_details` (src/app.rs, lines 119-124). -/
def set_job_paths (s : App) (se so : String) : App :=
  match s.table_selected with
  | some idx =>
    match s.jobs.get? idx with
    | some job =>
      { s with jobs := s.jobs.set idx { job with stderr := some se, stdout := some so } }
    | none => s
  | none => s

/-- `App::ensure_job_details` (src/app.rs, lines 101-130).  `fetchRes`
models the result of `fetch_job_details(selected_id)` (external Detail
Source; `none` on failure).  The second component records whether the
Detail Source was invoked. -/
def ensure_job_details (fetchRes : Option (String × String))
    (readFn : String → String → Except String String) (s : App) : App × Bool :=
  match selected_job s with
  | none => (s, false)
  | some j =>
    let selected_id := j.job_id
    if s.last_detail_job_id = some selected_id then
      ((ensure_log_loaded readFn s).1, false)
    else
      let already_has_details := ((selected_job s).map (fun jb => jb.stderr.isSome)).getD false
      let step :=
        if ¬already_has_details then
          match fetchRes with
          | some (se, so) => (set_job_paths s se so, true)
          | none => (s, true)
        else (s, false)
      let s2 := { step.1 with last_detail_job_id := some selected_id }
      ((ensure_log_loaded readFn s2).1, step.2)

/-- Field initialisation of `App::new` (src/app.rs, lines 38-57), before
the initial `refresh_jobs`. -/
def App.initial : App :=
  { jobs := [], table_selected := some 0, should_quit := false,
    log_preview := none, log_error := none, show_stderr := false,
    log_scroll := 0, log_line_count := 0, focus := FocusPanel.Jobs,
    job_list_area := ⟨0, 0, 0, 0⟩, log_area := ⟨0, 0, 0, 0⟩,
    last_detail_job_id := none, last_log_key := none }

/-- `App::new` (src/app.rs, lines 38-60): initial fields, then one
refresh with the first snapshot. -/
def App.new (newJobs : List Job) : App := refresh_jobs App.initial newJobs

/-! ## Concrete states and oracles for witnesses and counterexamples -/

/-- A sample job record with the given identifier and output paths. -/
def exJob (id : String) (se so : Option String) : Job :=
  { job_id := id, partition := "p", name := "n", user := "u",
    state := JobState.Running, time := "0:01", nodes := "1",
    nodelist := "node1", tres := "", command := "run", work_dir := "/w",
    stderr := se, stdout := so }

/-- A Log Source that always fails. -/
def errRead : String → String → Except String String :=
  fun _ _ => Except.error "boom"

/-- A Log Source serving a five-line file at path "o1". -/
def readO1 : String → String → Except String String :=
  fun p _ => if p = "o1" then Except.ok "a\nb\nc\nd\ne" else Except.error "x"

/-- A Log Source serving a two-line file at path "o2". -/
def readO2 : String → String → Except String String :=
  fun p _ => if p = "o2" then Except.ok "a\nb" else Except.error "x"

/-- A Log Source serving a five-line file at path "e1". -/
def readE1 : String → String → Except String String :=
  fun p _ => if p = "e1" then Except.ok "a\nb\nc\nd\ne" else Except.error "x"

/-- A state with one selected job whose paths are not yet fetched. -/
def exDetailState : App :=
  { App.initial with jobs := [exJob "1" none none], table_selected := some 0 }

/-- A state with one selected job whose paths are already present. -/
def exPathState : App :=
  { App.initial with
    jobs := [exJob "1" (some "e1") (some "o1")],
    table_selected := some 0 }

/-- A two-job state with the last row selected. -/
def exTwoLast : App :=
  { App.initial with
    jobs := [exJob "1" none none, exJob "2" none none],
    table_selected := some 1 }

/-- A two-job state with the first row selected. -/
def exTwoFirst : App :=
  { App.initial with
    jobs := [exJob "1" none none, exJob "2" none none],
    table_selected := some 0 }

/-- A state reached from `App.new` through public operations only: load
job 1's five-line stdout (sticky-bottom scrolls to offset 5), scroll up
by 2, select job 2, and load its two-line stdout while scrolled above
the bottom. -/
def c5_reached : App :=
  (ensure_job_details (some ("e2", "o2")) readO2
    (next_job (scroll_log_up
      (ensure_job_details (some ("e1", "o1")) readO1
        (App.new [exJob "1" none none, exJob "2" none none])).1 2))).1

/-! ## Lemmas and claim theorems -/

theorem countNL_append (a b : List Char) : countNL (a ++ b) = countNL a + countNL b := by
  induction a with
  | nil => simp [countNL]
  | cons c cs ih => simp [countNL, ih]; omega

theorem linesGo_split (ys : List Char) :
    ∀ (xs acc : List Char),
      linesGo acc (xs ++ '\n' :: ys) = linesGo acc (xs ++ ['\n']) ++ linesList ys := by
  intro xs
  induction xs with
  | nil =>
    intro acc
    simp [linesGo, linesList]
  | cons x xs ih =>
    intro acc
    by_cases hx : x = '\n' <;> simp [linesGo, hx, ih]

theorem countNL_le_linesGo_length :
    ∀ (l acc : List Char), countNL l ≤ (linesGo acc l).length := by
  intro l
  induction l with
  | nil => intro acc; simp [countNL]
  | cons c cs ih =>
    intro acc
    by_cases hc : c = '\n' <;> simp [countNL, linesGo, hc]
    · have := ih []
      omega
    · exact ih (c :: acc)

theorem countNL_le_linesList_length (l : List Char) : countNL l ≤ (linesList l).length :=
  countNL_le_linesGo_length l []

theorem drop_length_add {α : Type} (u : List α) (v : List α) (i : Nat) :
    (u ++ v).drop (u.length + i) = v.drop i := by
  induction u with
  | nil => simp
  | cons a u ih => simpa [Nat.succ_add] using ih

theorem drop_sub_append {α : Type} (u v : List α) (k : Nat) (h : k ≤ v.length) :
    (u ++ v).drop ((u ++ v).length - k) = v.drop (v.length - k) := by
  have hlen : (u ++ v).length - k = u.length + (v.length - k) := by
    simp [List.length_append]
    omega
  rw [hlen, drop_length_add]

theorem exists_newline_split (b : List Char) (h : 0 < countNL b) :
    ∃ b1 b2, b = b1 ++ '\n' :: b2 ∧ countNL b1 = 0 := by
  induction b with
  | nil => simp [countNL] at h
  | cons c cs ih =>
    by_cases hc : c = '\n'
    · exact ⟨[], cs, by simp [hc], rfl⟩
    · have hcs : 0 < countNL cs := by
        simpa [countNL, hc] using h
      obtain ⟨b1, b2, hb, hb1⟩ := ih hcs
      exact ⟨c :: b1, b2, by simp [hb], by simp [countNL, hc, hb1]⟩

theorem linesList_drop_last (a b : List Char) (k : Nat) (h : k + 1 ≤ countNL b) :
    (linesList (a ++ b)).drop ((linesList (a ++ b)).length - k)
      = (linesList b).drop ((linesList b).length - k) := by
  obtain ⟨b1, b2, rfl, hb1⟩ := exists_newline_split b (by omega)
  have hb2 : k ≤ countNL b2 := by
    have := countNL_append b1 ('\n' :: b2)
    simp [countNL, hb1] at this
    omega
  have hlen : k ≤ (linesList b2).length := le_trans hb2 (countNL_le_linesList_length b2)
  have e1 : a ++ (b1 ++ '\n' :: b2) = (a ++ b1) ++ '\n' :: b2 := by
    simp [List.append_assoc]
  rw [e1]
  have e2 : linesList ((a ++ b1) ++ '\n' :: b2)
      = linesGo [] ((a ++ b1) ++ ['\n']) ++ linesList b2 := linesGo_split b2 (a ++ b1) []
  have e3 : linesList (b1 ++ '\n' :: b2)
      = linesGo [] (b1 ++ ['\n']) ++ linesList b2 := linesGo_split b2 b1 []
  rw [show linesList ((a ++ b1) ++ '\n' :: b2) = linesGo [] ((a ++ b1) ++ ['\n']) ++ linesList b2 from e2,
      show linesList (b1 ++ '\n' :: b2) = linesGo [] (b1 ++ ['\n']) ++ linesList b2 from e3,
      drop_sub_append _ _ _ hlen, drop_sub_append _ _ _ hlen]

theorem take_drop_append_drop {α : Type} (l : List α) (m n : Nat) (h : m ≤ n) :
    (l.take n).drop m ++ l.drop n = l.drop m := by
  have h1 : (l.take n).drop m = (l.drop m).take (n - m) := by
    rw [List.drop_take]
  have h2 : l.drop n = (l.drop m).drop (n - m) := by
    rw [List.drop_drop]
    congr 1
    omega
  rw [h1, h2, List.take_append_drop]

theorem tailLoop_spec (file : List Char) (k : Nat) :
    ∀ pos, ∀ nf buf, pos ≤ file.length → buf = file.drop pos →
      nf = min (countNL buf) (k + 1) →
      ∃ p, tailLoop file k pos nf buf = file.drop p ∧ (p = 0 ∨ k < countNL (file.drop p)) := by
  intro pos
  induction pos using Nat.strong_induction_on with
  | _ pos ih =>
    intro nf buf hle hbuf hnf
    rw [tailLoop]
    by_cases h0 : pos = 0
    · subst h0
      simp only [dif_pos rfl]
      exact ⟨0, by simpa using hbuf, Or.inl rfl⟩
    · simp only [dif_neg h0]
      have hchunk : (file.take pos).drop (pos - min 8192 pos) ++ buf
          = file.drop (pos - min 8192 pos) := by
        rw [hbuf]
        exact take_drop_append_drop file (pos - min 8192 pos) pos (by omega)
      have hcnt : countNL ((file.take pos).drop (pos - min 8192 pos) ++ buf)
          = countNL ((file.take pos).drop (pos - min 8192 pos)) + countNL buf :=
        countNL_append _ _
      by_cases hstop :
          k < min (nf + countNL ((file.take pos).drop (pos - min 8192 pos))) (k + 1)
          ∨ pos - min 8192 pos = 0
      · simp only [if_pos hstop]
        refine ⟨pos - min 8192 pos, hchunk, ?_⟩
        rcases hstop with hlt | hz
        · right
          rw [← hchunk, hcnt]
          omega
        · left; exact hz
      · simp only [if_neg hstop]
        push_neg at hstop
        obtain ⟨hnlt, hpz⟩ := hstop
        have hdec : pos - min 8192 pos < pos := by omega
        apply ih (pos - min 8192 pos) hdec _ _ (by omega) hchunk
        rw [hcnt, hnf]
        omega

/-- C2: for every file with lines `L1..Ln` and requested count `k`,
`tail_read` returns exactly the last `min k n` lines joined with
newlines — `(linesList file).drop (n - k)` is precisely that list; for
`k ≥ n` this is all the lines, and for the empty file both sides are
empty (no error). -/
theorem tail_read_last_lines (file : List Char) (k : Nat) :
    tail_read file k
      = List.intercalate ['\n'] ((linesList file).drop ((linesList file).length - k)) := by
  unfold tail_read
  by_cases h : file.length = 0
  · have hfile : file = [] := List.length_eq_zero.mp h
    subst hfile
    simp [linesList, linesGo, List.intercalate]
  · simp only [if_neg h]
    obtain ⟨p, hp, hcase⟩ := tailLoop_spec file k file.length 0 []
      le_rfl (by simp) (by simp [countNL])
    rw [hp]
    rcases hcase with rfl | hcnt
    · simp
    · conv_rhs => rw [← List.take_append_drop p file]
      rw [linesList_drop_last (file.take p) (file.drop p) k (by omega)]

theorem findIdx?_go_spec {α : Type} (p : α → Bool) :
    ∀ (l : List α) (i : Nat), (∃ x ∈ l, p x = true) →
      ∃ k y, List.findIdx? p l i = some (i + k) ∧ l.get? k = some y ∧ p y = true := by
  intro l
  induction l with
  | nil => intro i h; simp at h
  | cons a l ih =>
    intro i h
    by_cases ha : p a = true
    · exact ⟨0, a, by simp [List.findIdx?_cons, ha], rfl, ha⟩
    · have hx : ∃ x ∈ l, p x = true := by
        obtain ⟨x, hx, hpx⟩ := h
        rcases List.mem_cons.mp hx with rfl | hmem
        · exact absurd hpx ha
        · exact ⟨x, hmem, hpx⟩
      obtain ⟨k, y, h1, h2, h3⟩ := ih (i + 1) hx
      refine ⟨k + 1, y, ?_, by simpa using h2, h3⟩
      rw [List.findIdx?_cons, if_neg (by simp [ha]), h1]
      congr 1
      omega

theorem exists_findIdx? {α : Type} (p : α → Bool) (l : List α)
    (h : ∃ x ∈ l, p x = true) :
    ∃ k y, l.findIdx? p = some k ∧ l.get? k = some y ∧ p y = true := by
  obtain ⟨k, y, h1, h2, h3⟩ := findIdx?_go_spec p l 0 h
  exact ⟨k, y, by simpa using h1, h2, h3⟩

theorem transfer_details_job_id (d : List (String × Option String × Option String))
    (job : Job) : (transfer_details d job).job_id = job.job_id := by
  unfold transfer_details
  rcases h : d.find? (fun t => t.1 = job.job_id) with _ | ⟨a, se, so⟩ <;> simp [h]

theorem refresh_jobs_jobs (s : App) (newJobs : List Job) :
    (refresh_jobs s newJobs).jobs = newJobs.map (transfer_details (old_details_of s)) := by
  rcases h : selected_job s with _ | j
  · simp [refresh_jobs, refresh_clamp, h]
  · rcases hidx : (newJobs.map (transfer_details (old_details_of s))).findIdx?
        (fun x => x.job_id = j.job_id) with _ | idx <;>
      simp [refresh_jobs, refresh_clamp, h, hidx]

theorem load_no_path_preserves (s : App) (key : String) :
    (load_no_path s key).jobs = s.jobs
    ∧ (load_no_path s key).table_selected = s.table_selected
    ∧ (load_no_path s key).show_stderr = s.show_stderr
    ∧ (load_no_path s key).last_detail_job_id = s.last_detail_job_id
    ∧ (load_no_path s key).log_area = s.log_area := by
  simp [load_no_path]

theorem load_ok_preserves (s : App) (key content : String) (b : Bool) :
    (load_ok s key content b).jobs = s.jobs
    ∧ (load_ok s key content b).table_selected = s.table_selected
    ∧ (load_ok s key content b).show_stderr = s.show_stderr
    ∧ (load_ok s key content b).last_detail_job_id = s.last_detail_job_id
    ∧ (load_ok s key content b).log_area = s.log_area := by
  unfold load_ok scroll_log_bottom
  cases b <;> simp

theorem load_err_preserves (s : App) (key e : String) :
    (load_err s key e).jobs = s.jobs
    ∧ (load_err s key e).table_selected = s.table_selected
    ∧ (load_err s key e).show_stderr = s.show_stderr
    ∧ (load_err s key e).last_detail_job_id = s.last_detail_job_id
    ∧ (load_err s key e).log_area = s.log_area := by
  simp [load_err]

theorem ensure_log_loaded_preserves (f : String → String → Except String String) (s : App) :
    ((ensure_log_loaded f s).1).jobs = s.jobs
    ∧ ((ensure_log_loaded f s).1).table_selected = s.table_selected
    ∧ ((ensure_log_loaded f s).1).show_stderr = s.show_stderr
    ∧ ((ensure_log_loaded f s).1).last_detail_job_id = s.last_detail_job_id
    ∧ ((ensure_log_loaded f s).1).log_area = s.log_area := by
  unfold ensure_log_loaded
  rcases h : selected_job s with _ | j
  · simp
  · simp only [h]
    split
    · simp
    · rcases hp : (if s.show_stderr then j.stderr else j.stdout) with _ | p
      · simp only [hp]
        exact load_no_path_preserves s (log_key_of s j)
      · simp only [hp]
        split
        · exact load_no_path_preserves s (log_key_of s j)
        · rcases hr : f p j.nodelist with e | content <;> simp only [hr]
          · exact load_err_preserves s (log_key_of s j) e
          · exact load_ok_preserves s (log_key_of s j) content _

theorem selected_job_ensure (f : String → String → Except String String) (s : App) :
    selected_job (ensure_log_loaded f s).1 = selected_job s := by
  have h := ensure_log_loaded_preserves f s
  unfold selected_job
  rw [h.1, h.2.1]

theorem ensure_log_loaded_key (f : String → String → Except String String) (s : App)
    (j : Job) (hsel : selected_job s = some j) :
    ((ensure_log_loaded f s).1).last_log_key = some (log_key_of s j) := by
  unfold ensure_log_loaded
  simp only [hsel]
  split
  · next hkey => simpa using hkey
  · rcases hp : (if s.show_stderr then j.stderr else j.stdout) with _ | p
    · simp [hp, load_no_path]
    · simp only [hp]
      split
      · simp [load_no_path]
      · rcases hr : f p j.nodelist with e | content <;>
          simp [hr, load_err, load_ok, scroll_log_bottom]

theorem ensure_log_loaded_no_sel (f : String → String → Except String String) (s : App)
    (h : selected_job s = none) : ensure_log_loaded f s = (s, false) := by
  unfold ensure_log_loaded
  simp [h]

theorem ensure_log_loaded_skip (f : String → String → Except String String) (s : App)
    (j : Job) (hsel : selected_job s = some j)
    (hkey : s.last_log_key = some (log_key_of s j)) :
    ensure_log_loaded f s = (s, false) := by
  unfold ensure_log_loaded
  simp [hsel, hkey]

theorem refresh_jobs_found (s : App) (newJobs : List Job) (j : Job) (idx : Nat)
    (hselj : selected_job s = some j)
    (hfind : (newJobs.map (transfer_details (old_details_of s))).findIdx?
        (fun x => x.job_id = j.job_id) = some idx) :
    refresh_jobs s newJobs =
      { s with jobs := newJobs.map (transfer_details (old_details_of s)),
               table_selected := some idx } := by
  unfold refresh_jobs
  simp [hselj, hfind]

theorem refresh_jobs_not_found (s : App) (newJobs : List Job) (j : Job)
    (hselj : selected_job s = some j)
    (hfind : (newJobs.map (transfer_details (old_details_of s))).findIdx?
        (fun x => x.job_id = j.job_id) = none) :
    refresh_jobs s newJobs = refresh_clamp s (newJobs.map (transfer_details (old_details_of s))) := by
  unfold refresh_jobs
  simp [hselj, hfind]

/-- C7: two successive calls of the ensure-log operation with no
intervening state change perform at most one read: whatever the first
`ensure_log_loaded` did (including a failed read, which still records
the cache key), the second call's read flag is false. -/
theorem c7_ensure_log_loaded_idempotent (f : String → String → Except String String)
    (s : App) : (ensure_log_loaded f (ensure_log_loaded f s).1).2 = false := by
  rcases hsel : selected_job s with _ | j
  · rw [ensure_log_loaded_no_sel f s hsel, ensure_log_loaded_no_sel f s hsel]
  · have hsel1 : selected_job (ensure_log_loaded f s).1 = some j := by
      rw [selected_job_ensure, hsel]
    have hshow := (ensure_log_loaded_preserves f s).2.2.1
    have hkey1 : ((ensure_log_loaded f s).1).last_log_key
        = some (log_key_of (ensure_log_loaded f s).1 j) := by
      rw [ensure_log_loaded_key f s j hsel]
      unfold log_key_of
      rw [hshow]
    rw [ensure_log_loaded_skip f _ j hsel1 hkey1]

/-- C10: selection navigation wraps around: on a non-empty list,
`next_job` at the last index selects 0 and `previous_job` at index 0
selects the last index; on an empty list both are the identity. -/
theorem c10_selection_wraps (s : App) :
    (s.jobs ≠ [] →
      ((s.table_selected = some (s.jobs.length - 1) →
          (next_job s).table_selected = some 0)
        ∧ (s.table_selected = some 0 →
            (previous_job s).table_selected = some (s.jobs.length - 1))))
    ∧ (s.jobs = [] → next_job s = s ∧ previous_job s = s) := by
  constructor
  · intro hne
    have hemp : s.jobs.isEmpty = false := by
      simpa [List.isEmpty_iff] using hne
    constructor
    · intro hsel
      simp [next_job, hemp, hsel]
    · intro hsel
      simp [previous_job, hemp, hsel]
  · intro he
    have hemp : s.jobs.isEmpty = true := by simp [he]
    simp [next_job, previous_job, hemp]

/-- C10 witness: wrap-around at both ends on a concrete two-job list,
and identity on the empty initial state. -/
theorem c10_selection_wraps_witness :
    (next_job exTwoLast).table_selected = some 0
    ∧ (previous_job exTwoFirst).table_selected = some (exTwoFirst.jobs.length - 1)
    ∧ (next_job App.initial = App.initial ∧ previous_job App.initial = App.initial) :=
  ⟨((c10_selection_wraps exTwoLast).1 (by decide)).1 (by decide),
   ((c10_selection_wraps exTwoFirst).1 (by decide)).2 (by decide),
   (c10_selection_wraps App.initial).2 (by decide)⟩

/-- C1: if the selected job's identifier also occurs in the new
snapshot, `refresh_jobs` re-selects an index holding a job with that
identifier and leaves both the detail marker and the log cache key
untouched. -/
theorem c1_selection_stability (s : App) (newJobs : List Job) (i : Nat) (j : Job)
    (hsel : s.table_selected = some i) (hget : s.jobs.get? i = some j)
    (hmem : ∃ x ∈ newJobs, x.job_id = j.job_id) :
    (∃ idx jj, (refresh_jobs s newJobs).table_selected = some idx
        ∧ (refresh_jobs s newJobs).jobs.get? idx = some jj ∧ jj.job_id = j.job_id)
    ∧ (refresh_jobs s newJobs).last_detail_job_id = s.last_detail_job_id
    ∧ (refresh_jobs s newJobs).last_log_key = s.last_log_key := by
  have hselj : selected_job s = some j := by
    simp only [selected_job, hsel, Option.bind_some]
    simpa using hget
  have hmem' : ∃ x ∈ newJobs.map (transfer_details (old_details_of s)),
      (fun y => decide (y.job_id = j.job_id)) x = true := by
    obtain ⟨x, hx, hid⟩ := hmem
    exact ⟨transfer_details (old_details_of s) x, List.mem_map_of_mem _ hx,
      by simp [transfer_details_job_id, hid]⟩
  obtain ⟨k, y, hfind, hgetk, hpy⟩ := exists_findIdx? _ _ hmem'
  rw [refresh_jobs_found s newJobs j k hselj hfind]
  exact ⟨⟨k, y, rfl, hgetk, by simpa using hpy⟩, rfl, rfl⟩

/-- C1 witness: job "2" selected, new snapshot has "2" first; selection
follows it to index 0 and the caches are untouched. -/
theorem c1_selection_stability_witness :
    (∃ idx jj,
        (refresh_jobs exTwoLast [exJob "2" none none]).table_selected = some idx
        ∧ (refresh_jobs exTwoLast [exJob "2" none none]).jobs.get? idx = some jj
        ∧ jj.job_id = (exJob "2" none none).job_id)
    ∧ (refresh_jobs exTwoLast [exJob "2" none none]).last_detail_job_id
        = exTwoLast.last_detail_job_id
    ∧ (refresh_jobs exTwoLast [exJob "2" none none]).last_log_key
        = exTwoLast.last_log_key :=
  c1_selection_stability exTwoLast [exJob "2" none none] 1 (exJob "2" none none)
    (by decide) (by decide) ⟨exJob "2" none none, by decide, by decide⟩

/-- C8: when the selected identifier is gone from the new snapshot and
the old index is at least the (non-zero) new length, `refresh_jobs`
selects the last row of the new list. -/
theorem c8_selection_clamp (s : App) (newJobs : List Job) (i : Nat) (j : Job)
    (hsel : s.table_selected = some i) (hget : s.jobs.get? i = some j)
    (habs : ∀ x ∈ newJobs, x.job_id ≠ j.job_id)
    (hge : newJobs.length ≤ i) (hne : newJobs ≠ []) :
    (refresh_jobs s newJobs).table_selected = some (newJobs.length - 1) := by
  have hselj : selected_job s = some j := by
    simp only [selected_job, hsel, Option.bind_some]
    simpa using hget
  have hfind : (newJobs.map (transfer_details (old_details_of s))).findIdx?
      (fun x => x.job_id = j.job_id) = none := by
    rw [List.findIdx?_eq_none_iff]
    intro x hx
    obtain ⟨x0, hx0, rfl⟩ := List.mem_map.mp hx
    simp [transfer_details_job_id, habs x0 hx0]
  rw [refresh_jobs_not_found s newJobs j hselj hfind]
  unfold refresh_clamp
  have hlen : (newJobs.map (transfer_details (old_details_of s))).length = newJobs.length :=
    List.length_map _ _
  have hemp : (newJobs.map (transfer_details (old_details_of s))).isEmpty = false := by
    simp [List.isEmpty_iff, hne]
  simp [hsel, hlen, hemp, hge, hne]

theorem old_details_find (s : App) (X e o : String)
    (hex : ∃ jb ∈ s.jobs, jb.job_id = X)
    (hall : ∀ jb ∈ s.jobs, jb.job_id = X → jb.stderr = some e ∧ jb.stdout = some o) :
    (old_details_of s).find? (fun t => t.1 = X) = some (X, some e, some o) := by
  obtain ⟨jb0, hmem0, hid0⟩ := hex
  have hpaths0 := hall jb0 hmem0 hid0
  have hmemf : jb0 ∈ s.jobs.filter (fun j => j.stderr.isSome) := by
    rw [List.mem_filter]
    exact ⟨hmem0, by simp [hpaths0.1]⟩
  have hmemd : (jb0.job_id, jb0.stderr, jb0.stdout) ∈ old_details_of s :=
    List.mem_map_of_mem _ hmemf
  have hsome : ((old_details_of s).find? (fun t => t.1 = X)).isSome := by
    rw [List.find?_isSome]
    exact ⟨_, hmemd, by simp [hid0]⟩
  obtain ⟨t, ht⟩ := Option.isSome_iff_exists.mp hsome
  have htp := List.find?_some ht
  have htmem := List.mem_of_find?_eq_some ht
  obtain ⟨jb, hjbf, hjbt⟩ := List.mem_map.mp htmem
  have hjmem : jb ∈ s.jobs := (List.mem_filter.mp hjbf).1
  obtain rfl : t = (jb.job_id, jb.stderr, jb.stdout) := hjbt.symm
  have ht1 : jb.job_id = X := by simpa using htp
  have hp := hall jb hjmem ht1
  rw [ht, ht1, hp.1, hp.2]

theorem transfer_details_paths (s : App) (X e o : String) (j0 : Job)
    (hid : j0.job_id = X)
    (hfind : (old_details_of s).find? (fun t => t.1 = X) = some (X, some e, some o)) :
    (transfer_details (old_details_of s) j0).stderr = some e
    ∧ (transfer_details (old_details_of s) j0).stdout = some o := by
  unfold transfer_details
  simp [hid, hfind]

theorem refresh_step_paths (X e o : String) (s : App) (snap : List Job)
    (hex : ∃ jb ∈ s.jobs, jb.job_id = X)
    (hall : ∀ jb ∈ s.jobs, jb.job_id = X → jb.stderr = some e ∧ jb.stdout = some o)
    (hsnap : ∃ jb ∈ snap, jb.job_id = X) :
    (∃ jb ∈ (refresh_jobs s snap).jobs, jb.job_id = X)
    ∧ ∀ jb ∈ (refresh_jobs s snap).jobs, jb.job_id = X →
        jb.stderr = some e ∧ jb.stdout = some o := by
  have hfind := old_details_find s X e o hex hall
  constructor
  · obtain ⟨jb, hjb, hid⟩ := hsnap
    refine ⟨transfer_details (old_details_of s) jb, ?_, ?_⟩
    · rw [refresh_jobs_jobs]
      exact List.mem_map_of_mem _ hjb
    · rw [transfer_details_job_id]
      exact hid
  · intro jb hjb hid
    rw [refresh_jobs_jobs] at hjb
    obtain ⟨j0, hj0, rfl⟩ := List.mem_map.mp hjb
    have hid0 : j0.job_id = X := by rwa [transfer_details_job_id] at hid
    exact transfer_details_paths s X e o j0 hid0 hfind

/-- C9: once every job carrying identifier X holds the fetched paths,
any sequence of refreshes whose snapshots each contain X keeps a job
with identifier X present and keeps its output paths unchanged — the
refresh copies the previously fetched paths onto the matching records. -/
theorem c9_paths_stable_under_refreshes (X e o : String) (snaps : List (List Job)) :
    ∀ s : App,
      (∃ jb ∈ s.jobs, jb.job_id = X) →
      (∀ jb ∈ s.jobs, jb.job_id = X → jb.stderr = some e ∧ jb.stdout = some o) →
      (∀ snap ∈ snaps, ∃ jb ∈ snap, jb.job_id = X) →
      (∃ jb ∈ (snaps.foldl refresh_jobs s).jobs, jb.job_id = X)
      ∧ ∀ jb ∈ (snaps.foldl refresh_jobs s).jobs, jb.job_id = X →
          jb.stderr = some e ∧ jb.stdout = some o := by
  induction snaps with
  | nil =>
    intro s hex hall _
    exact ⟨hex, hall⟩
  | cons snap snaps ih =>
    intro s hex hall hsnaps
    have hstep := refresh_step_paths X e o s snap hex hall (hsnaps snap (by simp))
    have hrest := ih (refresh_jobs s snap) hstep.1 hstep.2
      (fun sn hsn => hsnaps sn (by simp [hsn]))
    simpa using hrest

/-- C9 witness: job "1" with fetched paths survives two refreshes whose
snapshots both contain "1", with its paths intact. -/
theorem c9_paths_stable_under_refreshes_witness :
    (∃ jb ∈ (([[exJob "1" none none, exJob "3" none none],
        [exJob "1" none none]].foldl refresh_jobs exPathState)).jobs, jb.job_id = "1")
    ∧ ∀ jb ∈ (([[exJob "1" none none, exJob "3" none none],
        [exJob "1" none none]].foldl refresh_jobs exPathState)).jobs, jb.job_id = "1" →
        jb.stderr = some "e1" ∧ jb.stdout = some "o1" :=
  c9_paths_stable_under_refreshes "1" "e1" "o1"
    [[exJob "1" none none, exJob "3" none none], [exJob "1" none none]]
    exPathState (by decide) (by decide) (by decide)

/-- C8 witness: index 1 selected, job "2" absent from the singleton new
snapshot; the selection clamps to index 0. -/
theorem c8_selection_clamp_witness :
    (refresh_jobs exTwoLast [exJob "3" none none]).table_selected
      = some ([exJob "3" none none].length - 1) :=
  c8_selection_clamp exTwoLast [exJob "3" none none] 1 (exJob "2" none none)
    (by decide) (by decide) (by decide) (by decide) (by decide)

theorem ensure_log_loaded_ok (f : String → String → Except String String) (s : App)
    (j : Job) (p content : String)
    (hsel : selected_job s = some j)
    (hkey : s.last_log_key ≠ some (log_key_of s j))
    (hpath : (if s.show_stderr then j.stderr else j.stdout) = some p)
    (hp : p ≠ "")
    (hread : f p j.nodelist = Except.ok content) :
    ensure_log_loaded f s
      = (load_ok s (log_key_of s j) content (is_at_bottom s || s.log_preview.isNone), true) := by
  unfold ensure_log_loaded
  simp [hsel, hkey, hpath, hp, hread]

theorem load_ok_scroll (s : App) (key content : String) (b : Bool) :
    (load_ok s key content b).log_scroll
      = if b then countLines content % 65536 - viewport_lines s else s.log_scroll := by
  unfold load_ok scroll_log_bottom
  cases b <;> simp [viewport_lines]

/-- C3: on a reload forced by a changed cache key that succeeds, being at
the bottom bound (or having nothing loaded) yields the new bottom bound,
while being scrolled above the bottom leaves the offset unchanged. -/
theorem c3_sticky_bottom (s : App) (f : String → String → Except String String)
    (j : Job) (p content : String)
    (hsel : selected_job s = some j)
    (hkey : s.last_log_key ≠ some (log_key_of s j))
    (hpath : (if s.show_stderr then j.stderr else j.stdout) = some p)
    (hp : p ≠ "")
    (hread : f p j.nodelist = Except.ok content)
    (hsmall : countLines content < 65536) :
    ((s.log_preview = none ∨ s.log_scroll = max_scroll s) →
        ((ensure_log_loaded f s).1).log_scroll = countLines content - viewport_lines s)
    ∧ ((s.log_preview ≠ none ∧ s.log_scroll < max_scroll s) →
        ((ensure_log_loaded f s).1).log_scroll = s.log_scroll) := by
  rw [ensure_log_loaded_ok f s j p content hsel hkey hpath hp hread]
  constructor
  · intro hbot
    have hb : (is_at_bottom s || s.log_preview.isNone) = true := by
      rcases hbot with hnone | heq
      · simp [hnone]
      · simp [is_at_bottom, heq]
    rw [load_ok_scroll, if_pos hb, Nat.mod_eq_of_lt hsmall]
  · intro habove
    have hb : (is_at_bottom s || s.log_preview.isNone) = false := by
      have h1 : s.log_preview.isNone = false := by
        rcases hprev : s.log_preview with _ | v
        · exact absurd hprev habove.1
        · rfl
      have h2 : is_at_bottom s = false := by
        simp [is_at_bottom]
        omega
      simp [h1, h2]
    rw [load_ok_scroll, if_neg (by simp [hb])]

/-- C3 witness: nothing loaded yet (counts as at bottom), key changes
from none, five-line read succeeds: offset lands on the new bottom
bound. -/
theorem c3_sticky_bottom_witness :
    ((ensure_log_loaded readO1 exPathState).1).log_scroll
      = countLines "a\nb\nc\nd\ne" - viewport_lines exPathState :=
  (c3_sticky_bottom exPathState readO1 (exJob "1" (some "e1") (some "o1")) "o1"
      "a\nb\nc\nd\ne" (by decide) (by decide) (by decide) (by decide)
      (by simp [readO1]) (by decide)).1
    (Or.inl (by decide))

theorem ensure_job_details_cached (fetchRes : Option (String × String))
    (f : String → String → Except String String) (s : App) (j : Job)
    (hsel : selected_job s = some j)
    (hmark : s.last_detail_job_id = some j.job_id) :
    ensure_job_details fetchRes f s = ((ensure_log_loaded f s).1, false) := by
  unfold ensure_job_details
  simp [hsel, hmark]

theorem ensure_job_details_fail (f : String → String → Except String String)
    (s : App) (j : Job)
    (hsel : selected_job s = some j)
    (hmark : s.last_detail_job_id ≠ some j.job_id)
    (hse : j.stderr = none) :
    ensure_job_details none f s
      = ((ensure_log_loaded f { s with last_detail_job_id := some j.job_id }).1, true) := by
  unfold ensure_job_details
  simp [hsel, hmark, hse]

/-- C4 counterexample: with a selected job without paths and a failing
Detail Source, `ensure_job_details` leaves the paths unset but DOES
record the identifier as fetched, and a second call with the same
selection performs no new fetch — refuting the claim that no identifier
is recorded and the fetch retries each cycle. -/
theorem c4_counterexample :
    ((ensure_job_details none errRead exDetailState).1.last_detail_job_id = some "1")
    ∧ ((ensure_job_details none errRead
        ((ensure_job_details none errRead exDetailState).1)).2 = false)
    ∧ (∀ jj ∈ (ensure_job_details none errRead exDetailState).1.jobs,
        jj.stderr = none ∧ jj.stdout = none) := by
  decide

/-- C4 amended: when the Detail Source fails, the output paths stay
unset, but the selected identifier is recorded as fetched, so the fetch
is NOT retried while that selection and marker persist (the second call
performs no fetch). -/
theorem c4_detail_failure_marker (s : App)
    (f : String → String → Except String String) (j : Job)
    (hsel : selected_job s = some j)
    (hmark : s.last_detail_job_id ≠ some j.job_id)
    (hse : j.stderr = none) (hso : j.stdout = none) :
    (∀ jj, selected_job (ensure_job_details none f s).1 = some jj →
        jj.stderr = none ∧ jj.stdout = none)
    ∧ (ensure_job_details none f s).1.last_detail_job_id = some j.job_id
    ∧ (ensure_job_details none f (ensure_job_details none f s).1).2 = false := by
  rw [ensure_job_details_fail f s j hsel hmark hse]
  set s2 : App := { s with last_detail_job_id := some j.job_id } with hs2
  have hpres := ensure_log_loaded_preserves f s2
  have hsel2 : selected_job s2 = some j := by
    unfold selected_job at hsel ⊢
    simpa [hs2] using hsel
  have hsel' : selected_job (ensure_log_loaded f s2).1 = some j := by
    rw [selected_job_ensure, hsel2]
  have hmark' : ((ensure_log_loaded f s2).1).last_detail_job_id = some j.job_id := by
    rw [hpres.2.2.2.1]
  refine ⟨?_, hmark', ?_⟩
  · intro jj hjj
    rw [hsel'] at hjj
    cases hjj
    exact ⟨hse, hso⟩
  · rw [ensure_job_details_cached none f (ensure_log_loaded f s2).1 j hsel' hmark']

/-- C4 amended witness: concrete failing fetch; paths stay unset, marker
is recorded, second call performs no fetch. -/
theorem c4_detail_failure_marker_witness :
    (∀ jj, selected_job (ensure_job_details none errRead exDetailState).1 = some jj →
        jj.stderr = none ∧ jj.stdout = none)
    ∧ (ensure_job_details none errRead exDetailState).1.last_detail_job_id
        = some (exJob "1" none none).job_id
    ∧ (ensure_job_details none errRead
        (ensure_job_details none errRead exDetailState).1).2 = false :=
  c4_detail_failure_marker exDetailState errRead (exJob "1" none none)
    (by decide) (by decide) (by decide) (by decide)

/-- C6 counterexample: stream switch with nothing loaded, then a
successful five-line reload on a zero-height panel: the load happens but
the sticky-bottom rule moves the offset to 5, not 0 — refuting the claim
that the offset after the switch and reload is zero. -/
theorem c6_counterexample :
    ((ensure_log_loaded readE1 (toggle_log_mode exPathState)).2 = true)
    ∧ ((ensure_log_loaded readE1 (toggle_log_mode exPathState)).1.log_scroll = 5)
    ∧ ¬((ensure_log_loaded readE1 (toggle_log_mode exPathState)).1.log_scroll = 0) := by
  decide

/-- C6 amended: toggling the stream resets the offset to zero and forces
the next ensure-log call (given a selected job with a non-empty path for
the new stream) to perform a fresh read; the offset after that reload is
zero unless the pre-load state counted as at-bottom, in which case it is
the new bottom bound. -/
theorem c6_toggle_forces_reload (s : App)
    (f : String → String → Except String String) (j : Job) (p content : String)
    (hsel : selected_job s = some j)
    (hpath : (if !s.show_stderr then j.stderr else j.stdout) = some p)
    (hp : p ≠ "")
    (hread : f p j.nodelist = Except.ok content) :
    (toggle_log_mode s).log_scroll = 0
    ∧ (ensure_log_loaded f (toggle_log_mode s)).2 = true
    ∧ ((ensure_log_loaded f (toggle_log_mode s)).1).log_scroll
        = (if is_at_bottom (toggle_log_mode s) || (toggle_log_mode s).log_preview.isNone
           then countLines content % 65536 - viewport_lines s else 0) := by
  have hsel1 : selected_job (toggle_log_mode s) = some j := by
    unfold selected_job at hsel ⊢
    simpa [toggle_log_mode] using hsel
  have hkey1 : (toggle_log_mode s).last_log_key
      ≠ some (log_key_of (toggle_log_mode s) j) := by
    simp [toggle_log_mode]
  have hpath1 : (if (toggle_log_mode s).show_stderr then j.stderr else j.stdout)
      = some p := by
    simpa [toggle_log_mode] using hpath
  rw [ensure_log_loaded_ok f (toggle_log_mode s) j p content hsel1 hkey1 hpath1 hp hread]
  refine ⟨rfl, rfl, ?_⟩
  rw [load_ok_scroll]
  by_cases hb : (is_at_bottom (toggle_log_mode s) || (toggle_log_mode s).log_preview.isNone) = true
  · rw [if_pos hb, if_pos hb]
    simp [toggle_log_mode, viewport_lines]
  · rw [if_neg hb, if_neg hb]
    simp [toggle_log_mode]

/-- C6 amended witness: concrete toggle and reload; offset zero after
the toggle, read performed, offset equal to the sticky-bottom value. -/
theorem c6_toggle_forces_reload_witness :
    (toggle_log_mode exPathState).log_scroll = 0
    ∧ (ensure_log_loaded readE1 (toggle_log_mode exPathState)).2 = true
    ∧ ((ensure_log_loaded readE1 (toggle_log_mode exPathState)).1).log_scroll
        = (if is_at_bottom (toggle_log_mode exPathState)
              || (toggle_log_mode exPathState).log_preview.isNone
           then countLines "a\nb\nc\nd\ne" % 65536 - viewport_lines exPathState else 0) :=
  c6_toggle_forces_reload exPathState readE1 (exJob "1" (some "e1") (some "o1")) "e1"
    "a\nb\nc\nd\ne" (by decide) (by decide) (by decide) (by simp [readE1])

/-- C5 counterexample: a state reached from `App.new` through public
operations only (load five lines at bottom, scroll up two, change
selection, load a two-line buffer) has scroll offset 3 above the bound
`max(0, total_lines - viewport_lines) = 2` — refuting the invariant. -/
theorem c5_counterexample :
    c5_reached.log_preview = some "a\nb"
    ∧ c5_reached.log_line_count = countLines "a\nb"
    ∧ c5_reached.log_scroll = 3
    ∧ max_scroll c5_reached = 2
    ∧ ¬(c5_reached.log_scroll ≤ max_scroll c5_reached) := by
  decide

theorem ensure_log_scroll_cases (f : String → String → Except String String) (s : App) :
    ((ensure_log_loaded f s).1).log_scroll = s.log_scroll
    ∨ ((ensure_log_loaded f s).1).log_scroll = max_scroll (ensure_log_loaded f s).1 := by
  unfold ensure_log_loaded
  rcases h : selected_job s with _ | j
  · left; rfl
  · simp only [h]
    split
    · left; rfl
    · rcases hp : (if s.show_stderr then j.stderr else j.stdout) with _ | p
      · simp only [hp]
        left
        simp [load_no_path]
      · simp only [hp]
        split
        · left
          simp [load_no_path]
        · rcases hr : f p j.nodelist with e | content <;> simp only [hr]
          · right
            simp [load_err, max_scroll, viewport_lines]
          · rcases hb : (is_at_bottom s || s.log_preview.isNone) with _ | _
            · left
              simp [load_ok, hb]
            · right
              simp [load_ok, hb, scroll_log_bottom, max_scroll, viewport_lines]

theorem refresh_jobs_log_scroll (s : App) (newJobs : List Job) :
    (refresh_jobs s newJobs).log_scroll = s.log_scroll := by
  rcases h : selected_job s with _ | j
  · simp [refresh_jobs, refresh_clamp, h]
  · rcases hidx : (newJobs.map (transfer_details (old_details_of s))).findIdx?
        (fun x => x.job_id = j.job_id) with _ | idx <;>
      simp [refresh_jobs, refresh_clamp, h, hidx]

/-- C5 amended: every operation that writes the scroll offset clamps it
or lowers it — scroll-down clamps to the bound, scroll-to-bottom sets
exactly the bound, scroll-up never increases the offset, toggling and
scroll-to-top zero it, a load sets the new bound or keeps the old
offset, and selection changes and refreshes leave it alone.  The global
bound `log_scroll ≤ max_scroll` itself is NOT an invariant of all
reachable states (see the counterexample): a successful load while
scrolled above the bottom keeps an offset that can exceed the new
bound. -/
theorem c5_scroll_clamping (s : App) (amount : Nat) (newJobs : List Job)
    (f : String → String → Except String String) :
    (scroll_log_down s amount).log_scroll ≤ max_scroll (scroll_log_down s amount)
    ∧ (scroll_log_bottom s).log_scroll = max_scroll (scroll_log_bottom s)
    ∧ (scroll_log_top s).log_scroll = 0
    ∧ (scroll_log_up s amount).log_scroll ≤ s.log_scroll
    ∧ (toggle_log_mode s).log_scroll = 0
    ∧ ((ensure_log_loaded f s).1).log_scroll
        ≤ max (max_scroll (ensure_log_loaded f s).1) s.log_scroll
    ∧ (next_job s).log_scroll = s.log_scroll
    ∧ (previous_job s).log_scroll = s.log_scroll
    ∧ (select_first s).log_scroll = s.log_scroll
    ∧ (select_last s).log_scroll = s.log_scroll
    ∧ (refresh_jobs s newJobs).log_scroll = s.log_scroll := by
  refine ⟨?_, ?_, rfl, ?_, rfl, ?_, ?_, ?_, ?_, ?_, refresh_jobs_log_scroll s newJobs⟩
  · simp [scroll_log_down, max_scroll, viewport_lines]
  · simp [scroll_log_bottom, max_scroll, viewport_lines]
  · simp [scroll_log_up]
  · rcases ensure_log_scroll_cases f s with h | h
    · rw [h]; exact le_max_right _ _
    · rw [h]; exact le_max_left _ _
  · unfold next_job
    split
    · rfl
    · simp
  · unfold previous_job
    split
    · rfl
    · simp
  · unfold select_first
    split <;> rfl
  · unfold select_last
    split <;> rfl

end Ylurm
